import Mathlib

/-!
Shallow embedding of `src/extensions/dingtalk/src/monitor.ts` (the variant the
claims reference: structured logger, SIGNATURE_TTL_MS = 100 s).

Modelling conventions:
* JS `Map<string, number>` is an insertion-ordered association list
  `List (String × Int)`; `set` on an existing key updates the value in place
  (keeping its position), otherwise appends.  JS `Set<string>` is an
  insertion-ordered `List String` whose `add` appends only when absent.
* Timestamps (`Date.now()`) are `Int` milliseconds; within one callback
  invocation the code reads the clock a handful of times, modelled by the
  single `now` parameter of the invocation.
* JS truthiness is modelled where the source relies on it: an empty string
  and the number `0` are falsy.
* `charCodeAt` is modelled by `Char.toNat` (the inputs of interest lie in the
  basic multilingual plane, where the two agree); `trim` and `slice` are
  modelled on the underlying character list.
* Logging is side-effect free and omitted.  The fire-and-forget call to
  `handleDingtalkMessage` is recorded by the `dispatched` flag of the
  callback result.
-/

namespace Dingtalk

/-- 32-bit DJB2-xor step: JS `hash = ((hash << 5) + hash) ^ charCode`, where
the shift and xor coerce to 32 bits.  The hash is carried as its unsigned
32-bit representative. -/
def hashStep (h c : Nat) : Nat := Nat.xor ((h * 33) % 4294967296) c

/-- Lower-case hex digit, as produced by JS `Number.prototype.toString(16)`. -/
def hexDigit (n : Nat) : Char :=
  if n < 10 then Char.ofNat (48 + n) else Char.ofNat (87 + n)

/-- Big-endian hex digits of `n` (8 digits of fuel suffice below 2^32). -/
def hexDigits : Nat → Nat → List Char
  | _, 0 => []
  | n, fuel + 1 => if n = 0 then [] else hexDigits (n / 16) fuel ++ [hexDigit (n % 16)]

/-- JS `(x >>> 0).toString(16)` for `x` already reduced mod 2^32. -/
def natToHex (n : Nat) : String :=
  if n = 0 then "0" else String.mk (hexDigits n 8)

/-- `hashText` from monitor.ts: DJB2-xor over the code units, rendered as
unsigned hex. -/
def hashText (input : String) : String :=
  natToHex (input.data.foldl (fun h c => hashStep h c.toNat) 5381)

/-- Whitespace as trimmed by JS `String.prototype.trim` (ASCII portion plus
NBSP; the events of interest contain no exotic space code points). -/
def jsWhitespace (c : Char) : Bool :=
  c == ' ' || c == '\t' || c == '\n' || c == '\r' || c == '\x0b' || c == '\x0c' || c == ' '

/-- JS `String.prototype.trim`. -/
def jsTrim (s : String) : String :=
  String.mk (((s.data.dropWhile jsWhitespace).reverse.dropWhile jsWhitespace).reverse)

/-- JS `String.prototype.slice(0, 50)`. -/
def jsTake50 (s : String) : String :=
  String.mk (s.data.take 50)

/-- The fields of `DingtalkRawMessage` that the monitor's dedup logic reads
(`senderNick`, `atUsers` and `robotCode` only feed log lines and are
omitted). -/
structure DingtalkRawMessage where
  msgtype : String
  textContent : Option String
  recognition : Option String
  senderId : String
  conversationId : String
  streamMessageId : Option String
deriving DecidableEq

/-- `rawMessage.streamMessageId = res.headers.messageId` when the header id is
truthy (a present, non-empty string). -/
def applyHeader (headerMessageId : Option String) (m : DingtalkRawMessage) :
    DingtalkRawMessage :=
  match headerMessageId with
  | some h => if h = "" then m else { m with streamMessageId := some h }
  | none => m

/-- Content extraction: structured text content when `msgtype === "text"`,
else recognized speech, else the empty string. -/
def extractContent (m : DingtalkRawMessage) : String :=
  (((if m.msgtype = "text" then m.textContent else none)).orElse
    (fun _ => m.recognition)).getD ""

/-- The dedupe identity key: prefers a truthy stream message id, else the
conversation/sender/text fallback. -/
def dedupeId (accountId : String) (m : DingtalkRawMessage) : String :=
  match m.streamMessageId with
  | some sid =>
    if sid = "" then dedupeFallback accountId m else accountId ++ ":" ++ sid
  | none => dedupeFallback accountId m
where
  dedupeFallback (accountId : String) (m : DingtalkRawMessage) : String :=
    accountId ++ ":" ++ m.conversationId ++ "_" ++ m.senderId ++ "_" ++
      (match m.textContent with
       | some t => jsTake50 t
       | none => m.msgtype)

/-- The content hash fed into the signature key. -/
def contentHash (m : DingtalkRawMessage) : String :=
  hashText (m.msgtype ++ ":" ++ jsTrim (extractContent m))

/-- The short-TTL content signature key. -/
def signatureKey (accountId : String) (m : DingtalkRawMessage) : String :=
  accountId ++ ":" ++ m.conversationId ++ ":" ++ m.senderId ++ ":" ++ contentHash m

/-! ### Cache primitives (JS `Map` / `Set` on insertion-ordered lists) -/

/-- JS `Map.get`. -/
def mapGet (m : List (String × Int)) (k : String) : Option Int :=
  (m.find? (fun e => e.1 == k)).map (fun e => e.2)

/-- JS `Map.set`: update in place when present, else append. -/
def mapSet (m : List (String × Int)) (k : String) (v : Int) : List (String × Int) :=
  if m.any (fun e => e.1 == k) then
    m.map (fun e => if e.1 == k then (k, v) else e)
  else m ++ [(k, v)]

/-- JS `Map.delete`. -/
def mapDelete (m : List (String × Int)) (k : String) : List (String × Int) :=
  m.filter (fun e => !(e.1 == k))

/-- JS `Set.add`. -/
def setAdd (s : List String) (k : String) : List String :=
  if s.any (fun x => x == k) then s else s ++ [k]

/-- JS `Set.delete`. -/
def setDelete (s : List String) (k : String) : List String :=
  s.filter (fun x => !(x == k))

/-! ### Dedup cache state and operations -/

/-- 10 000 entries. -/
def DEDUP_CACHE_MAX_SIZE : Nat := 10000

/-- 5 minutes in milliseconds. -/
def DEDUP_CACHE_TTL : Int := 5 * 60 * 1000

/-- 100 seconds in milliseconds. -/
def SIGNATURE_TTL_MS : Int := 100 * 1000

/-- The module-level mutable dedup state of monitor.ts. -/
structure DedupState where
  processedMessageIds : List String
  processedMessageTimestamps : List (String × Int)
  recentSignatureTimestamps : List (String × Int)
deriving DecidableEq

/-- The initial (empty) dedup state, also produced by `clearDedupCache`. -/
def emptyDedup : DedupState := ⟨[], [], []⟩

/-- `cleanupDedupCache`: delete every identity entry older than the TTL from
both the id set and the timestamp map. -/
def cleanupDedupCache (now : Int) (st : DedupState) : DedupState :=
  let expired := st.processedMessageTimestamps.filter
    (fun e => decide (now - e.2 > DEDUP_CACHE_TTL))
  { st with
    processedMessageIds :=
      st.processedMessageIds.filter (fun i => !(expired.any (fun e => e.1 == i))),
    processedMessageTimestamps :=
      st.processedMessageTimestamps.filter
        (fun e => !(decide (now - e.2 > DEDUP_CACHE_TTL))) }

/-- `cleanupSignatureCache`. -/
def cleanupSignatureCache (now : Int) (m : List (String × Int)) : List (String × Int) :=
  m.filter (fun e => !(decide (now - e.2 > SIGNATURE_TTL_MS)))

/-- `isSignatureDuplicate`: sweep, then report a duplicate when the key's last
timestamp is truthy (non-zero) and fresh; only on the non-duplicate path is
the timestamp written. -/
def isSignatureDuplicate (signature : String) (now : Int)
    (m : List (String × Int)) : Bool × List (String × Int) :=
  let c := cleanupSignatureCache now m
  match mapGet c signature with
  | some lastSeen =>
    if lastSeen ≠ 0 ∧ now - lastSeen < SIGNATURE_TTL_MS then (true, c)
    else (false, mapSet c signature now)
  | none => (false, mapSet c signature now)

/-- `isMessageProcessed`: membership in the identity set. -/
def isMessageProcessed (messageId : String) (st : DedupState) : Bool :=
  st.processedMessageIds.contains messageId

/-- `markMessageProcessed`: at capacity, purge expired entries, then (if still
at capacity) evict the oldest-inserted entry — guarded by JS truthiness of the
key — before inserting. -/
def markMessageProcessed (messageId : String) (now : Int) (st : DedupState) :
    DedupState :=
  let st1 :=
    if DEDUP_CACHE_MAX_SIZE ≤ st.processedMessageIds.length then
      let stc := cleanupDedupCache now st
      if DEDUP_CACHE_MAX_SIZE ≤ stc.processedMessageIds.length then
        match stc.processedMessageTimestamps.head? with
        | some e =>
          if e.1 = "" then stc
          else
            { stc with
              processedMessageIds := setDelete stc.processedMessageIds e.1,
              processedMessageTimestamps := mapDelete stc.processedMessageTimestamps e.1 }
        | none => stc
      else stc
    else st
  { st1 with
    processedMessageIds := setAdd st1.processedMessageIds messageId,
    processedMessageTimestamps := mapSet st1.processedMessageTimestamps messageId now }

/-- `touchDedupCache`: sweep the identity cache when non-empty, then the
signature cache. -/
def touchDedupCache (now : Int) (st : DedupState) : DedupState :=
  let st1 :=
    if 0 < st.processedMessageIds.length then cleanupDedupCache now st else st
  { st1 with recentSignatureTimestamps :=
      cleanupSignatureCache now st1.recentSignatureTimestamps }

/-! ### The TOPIC_ROBOT callback -/

/-- The `dingtalk-stream` acknowledgment values. -/
inductive EventAck
  | success
  | later
deriving DecidableEq

/-- Result of one callback invocation: the dedup state after it, the value
returned to the transport, and whether asynchronous dispatch to
`handleDingtalkMessage` was initiated. -/
structure CallbackResult where
  state : DedupState
  ack : EventAck
  dispatched : Bool
deriving DecidableEq

/-- The TOPIC_ROBOT callback registered by `monitorDingtalkProvider`.
`payload = none` models `JSON.parse` throwing, which the surrounding
`try`/`catch` converts into a logged error plus `EventAck.SUCCESS`. -/
def robotCallback (accountId : String) (st : DedupState)
    (payload : Option DingtalkRawMessage) (headerMessageId : Option String)
    (now : Int) : CallbackResult :=
  match payload with
  | none => ⟨st, .success, false⟩
  | some raw0 =>
    let raw := applyHeader headerMessageId raw0
    let st1 := touchDedupCache now st
    let dId := dedupeId accountId raw
    if isMessageProcessed dId st1 then ⟨st1, .success, false⟩
    else
      let sigr := isSignatureDuplicate (signatureKey accountId raw) now
        st1.recentSignatureTimestamps
      let st2 := { st1 with recentSignatureTimestamps := sigr.2 }
      if sigr.1 then ⟨st2, .success, false⟩
      else ⟨markMessageProcessed dId now st2, .success, true⟩

/-! ### Association-list lemmas -/

theorem mapGet_cons (x : String × Int) (xs : List (String × Int)) (k : String) :
    mapGet (x :: xs) k = if x.1 == k then some x.2 else mapGet xs k := by
  by_cases hx : (x.1 == k) = true
  · simp [mapGet, List.find?_cons_of_pos _ hx, hx]
  · simp [mapGet, List.find?_cons_of_neg _ hx, hx]

theorem mapSet_key_val (m : List (String × Int)) (k : String) (v : Int) :
    ∀ e ∈ mapSet m k v, e.1 = k → e.2 = v := by
  intro e he hk
  unfold mapSet at he
  split at he
  case isTrue h =>
    obtain ⟨x, hx, hxe⟩ := List.mem_map.mp he
    by_cases hxk : (x.1 == k) = true
    · rw [if_pos hxk] at hxe
      simp [← hxe]
    · rw [if_neg hxk] at hxe
      subst hxe
      exact absurd (by simpa using hk) hxk
  case isFalse h =>
    rcases List.mem_append.mp he with h1 | h1
    · exact absurd (List.any_eq_true.mpr ⟨e, h1, by simpa using hk⟩) h
    · simp at h1
      simp [h1]

theorem mapGet_mapSet_self (m : List (String × Int)) (k : String) (v : Int) :
    mapGet (mapSet m k v) k = some v := by
  unfold mapSet
  split
  case isTrue h =>
    induction m with
    | nil => simp at h
    | cons x xs ih =>
      by_cases hx : (x.1 == k) = true
      · simp only [List.map_cons, if_pos hx]
        rw [mapGet_cons]
        simp
      · simp only [List.any_cons, hx, Bool.false_or] at h
        simp only [List.map_cons, if_neg hx]
        rw [mapGet_cons, if_neg hx]
        exact ih h
  case isFalse h =>
    unfold mapGet
    rw [List.find?_append]
    have hnone : m.find? (fun e => e.1 == k) = none := by
      rw [List.find?_eq_none]
      intro e he hek
      exact h (List.any_eq_true.mpr ⟨e, he, hek⟩)
    simp [hnone, List.find?]

theorem mapGet_filter_of_all (p : String × Int → Bool) (m : List (String × Int))
    (k : String) (v : Int) (h : mapGet m k = some v)
    (hall : ∀ e ∈ m, e.1 = k → p e = true) :
    mapGet (m.filter p) k = some v := by
  induction m with
  | nil => simp [mapGet] at h
  | cons x xs ih =>
    rw [mapGet_cons] at h
    by_cases hx : (x.1 == k) = true
    · rw [if_pos hx] at h
      have hp : p x = true := hall x (by simp) (by simpa using hx)
      rw [List.filter_cons, if_pos hp, mapGet_cons, if_pos hx]
      exact h
    · rw [if_neg hx] at h
      have ih' := ih h (fun e he hek => hall e (by simp [he]) hek)
      rw [List.filter_cons]
      split
      · rw [mapGet_cons, if_neg hx]
        exact ih'
      · exact ih'

theorem mem_setAdd_self (s : List String) (k : String) : k ∈ setAdd s k := by
  unfold setAdd
  split
  case isTrue h =>
    obtain ⟨x, hx, hxk⟩ := List.any_eq_true.mp h
    have : x = k := by simpa using hxk
    exact this ▸ hx
  case isFalse h => simp

/-! ### Lemmas about `markMessageProcessed` and the callback -/

theorem mark_mem_ids (messageId : String) (now : Int) (st : DedupState) :
    messageId ∈ (markMessageProcessed messageId now st).processedMessageIds :=
  mem_setAdd_self _ _

theorem mark_key_val (messageId : String) (now : Int) (st : DedupState) :
    ∀ e ∈ (markMessageProcessed messageId now st).processedMessageTimestamps,
      e.1 = messageId → e.2 = now :=
  mapSet_key_val _ _ _

theorem isMessageProcessed_of_mem (k : String) (st : DedupState)
    (h : k ∈ st.processedMessageIds) : isMessageProcessed k st = true := by
  simp [isMessageProcessed, List.contains, h]

/-- An identity key whose timestamp entries are all `t1`, with `now` within
the TTL of `t1`, survives `touchDedupCache`. -/
theorem touch_keeps_fresh_id (k : String) (t1 now : Int) (st : DedupState)
    (hmem : k ∈ st.processedMessageIds)
    (hts : ∀ e ∈ st.processedMessageTimestamps, e.1 = k → e.2 = t1)
    (hfresh : now - t1 ≤ DEDUP_CACHE_TTL) :
    k ∈ (touchDedupCache now st).processedMessageIds := by
  have hlen : 0 < st.processedMessageIds.length :=
    List.length_pos.mpr (List.ne_nil_of_mem hmem)
  have hexp :
      ((st.processedMessageTimestamps.filter
          (fun e => decide (now - e.2 > DEDUP_CACHE_TTL))).any
        (fun e => e.1 == k)) = false := by
    rw [List.any_eq_false]
    intro e he hek
    have hm2 := List.mem_filter.mp he
    have hv : e.2 = t1 := hts e hm2.1 (by simpa using hek)
    have : now - e.2 > DEDUP_CACHE_TTL := by simpa using hm2.2
    omega
  unfold touchDedupCache
  rw [if_pos hlen]
  unfold cleanupDedupCache
  exact List.mem_filter.mpr ⟨hmem, by simp [hexp]⟩

/-- Inversion: a dispatching callback passed both dedup checks and its final
state is the marked state. -/
theorem robotCallback_dispatched_state (a : String) (st : DedupState)
    (raw0 : DingtalkRawMessage) (hm : Option String) (now : Int)
    (h : (robotCallback a st (some raw0) hm now).dispatched = true) :
    (isMessageProcessed (dedupeId a (applyHeader hm raw0))
        (touchDedupCache now st)) = false ∧
    (isSignatureDuplicate (signatureKey a (applyHeader hm raw0)) now
        (touchDedupCache now st).recentSignatureTimestamps).1 = false ∧
    (robotCallback a st (some raw0) hm now).state =
      markMessageProcessed (dedupeId a (applyHeader hm raw0)) now
        { touchDedupCache now st with
          recentSignatureTimestamps :=
            (isSignatureDuplicate (signatureKey a (applyHeader hm raw0)) now
              (touchDedupCache now st).recentSignatureTimestamps).2 } := by
  by_cases h1 : isMessageProcessed (dedupeId a (applyHeader hm raw0))
      (touchDedupCache now st) = true
  · simp [robotCallback, h1] at h
  · by_cases h2 : (isSignatureDuplicate (signatureKey a (applyHeader hm raw0)) now
        (touchDedupCache now st).recentSignatureTimestamps).1 = true
    · simp [robotCallback, h1, h2] at h
    · refine ⟨by simpa using h1, by simpa using h2, ?_⟩
      simp [robotCallback, h1, h2]

/-- A callback whose identity key is found in the (swept) identity cache is
suppressed: state only swept, SUCCESS, no dispatch. -/
theorem robotCallback_identity_dup (a : String) (st : DedupState)
    (raw0 : DingtalkRawMessage) (hm : Option String) (now : Int)
    (h : isMessageProcessed (dedupeId a (applyHeader hm raw0))
        (touchDedupCache now st) = true) :
    robotCallback a st (some raw0) hm now =
      ⟨touchDedupCache now st, .success, false⟩ := by
  simp [robotCallback, h]

/-! ### Claim C1 -/

/-- C1: for two inbound events with equal dedup identity keys, where the
second arrives while the first's identity-cache entry is within the 5-minute
TTL, only the first initiates asynchronous dispatch; the second returns the
success acknowledgment without the processor being invoked. -/
theorem claim_identity_window_dedup (a : String) (st : DedupState)
    (raw1 raw2 : DingtalkRawMessage) (hm1 hm2 : Option String) (t1 t2 : Int)
    (hkey : dedupeId a (applyHeader hm1 raw1) = dedupeId a (applyHeader hm2 raw2))
    (hwin : t2 - t1 ≤ DEDUP_CACHE_TTL)
    (hdisp : (robotCallback a st (some raw1) hm1 t1).dispatched = true) :
    (robotCallback a (robotCallback a st (some raw1) hm1 t1).state
        (some raw2) hm2 t2).dispatched = false ∧
    (robotCallback a (robotCallback a st (some raw1) hm1 t1).state
        (some raw2) hm2 t2).ack = EventAck.success := by
  obtain ⟨h1, h2, hstate⟩ := robotCallback_dispatched_state a st raw1 hm1 t1 hdisp
  have hmem : dedupeId a (applyHeader hm1 raw1) ∈
      (robotCallback a st (some raw1) hm1 t1).state.processedMessageIds := by
    rw [hstate]; exact mark_mem_ids _ _ _
  have hts : ∀ e ∈ (robotCallback a st (some raw1) hm1
        t1).state.processedMessageTimestamps,
      e.1 = dedupeId a (applyHeader hm1 raw1) → e.2 = t1 := by
    rw [hstate]; exact mark_key_val _ _ _
  have hsurv : dedupeId a (applyHeader hm1 raw1) ∈
      (touchDedupCache t2
        (robotCallback a st (some raw1) hm1 t1).state).processedMessageIds :=
    touch_keeps_fresh_id _ t1 t2 _ hmem hts hwin
  have hproc : isMessageProcessed (dedupeId a (applyHeader hm2 raw2))
      (touchDedupCache t2 (robotCallback a st (some raw1) hm1 t1).state) = true := by
    rw [← hkey]; exact isMessageProcessed_of_mem _ _ hsurv
  rw [robotCallback_identity_dup a _ raw2 hm2 t2 hproc]
  exact ⟨rfl, rfl⟩

/-- Witness for C1: a concrete redelivery of stream id "m1" one second later
is suppressed. -/
theorem claim_identity_window_dedup_witness :
    (robotCallback "default"
        (robotCallback "default" emptyDedup
          (some ⟨"text", some "hello", none, "s1", "c1", some "m1"⟩) none 1000).state
        (some ⟨"text", some "hello", none, "s1", "c1", some "m1"⟩) none 2000).dispatched
        = false ∧
    (robotCallback "default"
        (robotCallback "default" emptyDedup
          (some ⟨"text", some "hello", none, "s1", "c1", some "m1"⟩) none 1000).state
        (some ⟨"text", some "hello", none, "s1", "c1", some "m1"⟩) none 2000).ack
        = EventAck.success :=
  claim_identity_window_dedup "default" emptyDedup
    ⟨"text", some "hello", none, "s1", "c1", some "m1"⟩
    ⟨"text", some "hello", none, "s1", "c1", some "m1"⟩
    none none 1000 2000 rfl (by decide) (by decide)

/-! ### Signature-cache lemmas and claim C2 -/

theorem mark_sig_unchanged (k : String) (now : Int) (st : DedupState) :
    (markMessageProcessed k now st).recentSignatureTimestamps =
      st.recentSignatureTimestamps := by
  unfold markMessageProcessed cleanupDedupCache
  dsimp only
  split
  · split
    · split
      · split <;> rfl
      · rfl
    · rfl
  · rfl

theorem touch_sig (now : Int) (st : DedupState) :
    (touchDedupCache now st).recentSignatureTimestamps =
      cleanupSignatureCache now st.recentSignatureTimestamps := by
  unfold touchDedupCache cleanupDedupCache
  split <;> rfl

theorem isSignatureDuplicate_false_snd (sig : String) (now : Int)
    (m : List (String × Int)) (h : (isSignatureDuplicate sig now m).1 = false) :
    (isSignatureDuplicate sig now m).2 =
      mapSet (cleanupSignatureCache now m) sig now := by
  unfold isSignatureDuplicate at h ⊢
  cases hg : mapGet (cleanupSignatureCache now m) sig with
  | none => simp [hg]
  | some t =>
    by_cases hc : t ≠ 0 ∧ now - t < SIGNATURE_TTL_MS
    · simp [hg, hc] at h
    · simp [hg, hc]

theorem isSignatureDuplicate_true_of (sig : String) (now : Int)
    (m : List (String × Int)) (t : Int)
    (hg : mapGet (cleanupSignatureCache now m) sig = some t) (ht : t ≠ 0)
    (hlt : now - t < SIGNATURE_TTL_MS) :
    (isSignatureDuplicate sig now m).1 = true := by
  unfold isSignatureDuplicate
  simp [hg, ht, hlt]

/-- A callback that passes the identity check but hits the signature cache is
suppressed with SUCCESS and no dispatch. -/
theorem robotCallback_sig_dup (a : String) (st : DedupState)
    (raw0 : DingtalkRawMessage) (hm : Option String) (now : Int)
    (h1 : isMessageProcessed (dedupeId a (applyHeader hm raw0))
        (touchDedupCache now st) = false)
    (h2 : (isSignatureDuplicate (signatureKey a (applyHeader hm raw0)) now
        (touchDedupCache now st).recentSignatureTimestamps).1 = true) :
    robotCallback a st (some raw0) hm now =
      ⟨{ touchDedupCache now st with
          recentSignatureTimestamps :=
            (isSignatureDuplicate (signatureKey a (applyHeader hm raw0)) now
              (touchDedupCache now st).recentSignatureTimestamps).2 },
        .success, false⟩ := by
  simp [robotCallback, h1, h2]

/-- C2: two events with same account, conversation, sender, message type and
trimmed content but different transport ids, the second within the signature
TTL of the first: only the first dispatches; the second is acknowledged
SUCCESS without dispatch.  (`t1 ≠ 0` reflects that `Date.now()` timestamps
are non-zero; the code treats a `0` timestamp as absent by JS truthiness.) -/
theorem claim_signature_window_dedup (a : String) (st : DedupState)
    (raw1 raw2 : DingtalkRawMessage) (hm1 hm2 : Option String) (t1 t2 : Int)
    (hconv : (applyHeader hm1 raw1).conversationId =
      (applyHeader hm2 raw2).conversationId)
    (hsend : (applyHeader hm1 raw1).senderId = (applyHeader hm2 raw2).senderId)
    (htype : (applyHeader hm1 raw1).msgtype = (applyHeader hm2 raw2).msgtype)
    (hcontent : jsTrim (extractContent (applyHeader hm1 raw1)) =
      jsTrim (extractContent (applyHeader hm2 raw2)))
    (_hids : (applyHeader hm1 raw1).streamMessageId ≠
      (applyHeader hm2 raw2).streamMessageId)
    (ht1 : t1 ≠ 0) (hwin : t2 - t1 < SIGNATURE_TTL_MS)
    (hdisp : (robotCallback a st (some raw1) hm1 t1).dispatched = true) :
    (robotCallback a (robotCallback a st (some raw1) hm1 t1).state
        (some raw2) hm2 t2).dispatched = false ∧
    (robotCallback a (robotCallback a st (some raw1) hm1 t1).state
        (some raw2) hm2 t2).ack = EventAck.success := by
  obtain ⟨h1, h2, hstate⟩ := robotCallback_dispatched_state a st raw1 hm1 t1 hdisp
  have hsig : signatureKey a (applyHeader hm1 raw1) =
      signatureKey a (applyHeader hm2 raw2) := by
    unfold signatureKey contentHash
    rw [hconv, hsend, htype, hcontent]
  have hsnd := isSignatureDuplicate_false_snd
    (signatureKey a (applyHeader hm1 raw1)) t1
    (touchDedupCache t1 st).recentSignatureTimestamps h2
  have hs1sig : (robotCallback a st (some raw1) hm1
        t1).state.recentSignatureTimestamps =
      mapSet (cleanupSignatureCache t1
          (touchDedupCache t1 st).recentSignatureTimestamps)
        (signatureKey a (applyHeader hm1 raw1)) t1 := by
    rw [hstate, mark_sig_unchanged]
    exact hsnd
  have hget1 : mapGet ((robotCallback a st (some raw1) hm1
        t1).state.recentSignatureTimestamps)
      (signatureKey a (applyHeader hm1 raw1)) = some t1 := by
    rw [hs1sig]; exact mapGet_mapSet_self _ _ _
  have hall1 : ∀ e ∈ (robotCallback a st (some raw1) hm1
        t1).state.recentSignatureTimestamps,
      e.1 = signatureKey a (applyHeader hm1 raw1) → e.2 = t1 := by
    rw [hs1sig]; exact mapSet_key_val _ _ _
  by_cases hm : isMessageProcessed (dedupeId a (applyHeader hm2 raw2))
      (touchDedupCache t2 (robotCallback a st (some raw1) hm1 t1).state) = true
  · rw [robotCallback_identity_dup a _ raw2 hm2 t2 hm]
    exact ⟨rfl, rfl⟩
  · have hkeep : ∀ e ∈ (robotCallback a st (some raw1) hm1
          t1).state.recentSignatureTimestamps,
        e.1 = signatureKey a (applyHeader hm1 raw1) →
          (fun e => !(decide (t2 - e.2 > SIGNATURE_TTL_MS))) e = true := by
      intro e he hek
      have hv := hall1 e he hek
      have hnot : ¬ (t2 - e.2 > SIGNATURE_TTL_MS) := by
        rw [hv]; exact not_lt.mpr (le_of_lt hwin)
      simp [hnot]
    have hget2 : mapGet ((touchDedupCache t2 (robotCallback a st (some raw1) hm1
          t1).state).recentSignatureTimestamps)
        (signatureKey a (applyHeader hm1 raw1)) = some t1 := by
      rw [touch_sig]
      exact mapGet_filter_of_all _ _ _ _ hget1 hkeep
    have hall2 : ∀ e ∈ (touchDedupCache t2 (robotCallback a st (some raw1) hm1
          t1).state).recentSignatureTimestamps,
        e.1 = signatureKey a (applyHeader hm1 raw1) → e.2 = t1 := by
      rw [touch_sig]
      intro e he hek
      exact hall1 e (List.mem_filter.mp he).1 hek
    have hget3 : mapGet (cleanupSignatureCache t2
          ((touchDedupCache t2 (robotCallback a st (some raw1) hm1
            t1).state).recentSignatureTimestamps))
        (signatureKey a (applyHeader hm1 raw1)) = some t1 := by
      refine mapGet_filter_of_all _ _ _ _ hget2 ?_
      intro e he hek
      have hv := hall2 e he hek
      have hnot : ¬ (t2 - e.2 > SIGNATURE_TTL_MS) := by
        rw [hv]; exact not_lt.mpr (le_of_lt hwin)
      simp [hnot]
    have hdup : (isSignatureDuplicate (signatureKey a (applyHeader hm2 raw2)) t2
        (touchDedupCache t2 (robotCallback a st (some raw1) hm1
          t1).state).recentSignatureTimestamps).1 = true := by
      rw [← hsig]
      exact isSignatureDuplicate_true_of _ t2 _ t1 hget3 ht1 hwin
    rw [robotCallback_sig_dup a _ raw2 hm2 t2 (by simpa using hm) hdup]
    exact ⟨rfl, rfl⟩

/-- Witness for C2: same content under a fresh stream id "m2", 50 seconds
after "m1", is suppressed by the signature cache. -/
theorem claim_signature_window_dedup_witness :
    (robotCallback "default"
        (robotCallback "default" emptyDedup
          (some ⟨"text", some "hello", none, "s1", "c1", some "m1"⟩) none 1000).state
        (some ⟨"text", some "hello", none, "s1", "c1", some "m2"⟩) none 51000).dispatched
        = false ∧
    (robotCallback "default"
        (robotCallback "default" emptyDedup
          (some ⟨"text", some "hello", none, "s1", "c1", some "m1"⟩) none 1000).state
        (some ⟨"text", some "hello", none, "s1", "c1", some "m2"⟩) none 51000).ack
        = EventAck.success :=
  claim_signature_window_dedup "default" emptyDedup
    ⟨"text", some "hello", none, "s1", "c1", some "m1"⟩
    ⟨"text", some "hello", none, "s1", "c1", some "m2"⟩
    none none 1000 51000 rfl rfl rfl rfl (by decide) (by decide) (by decide)
    (by decide)

/-! ### Claim C3 -/

theorem isSignatureDuplicate_true_snd (sig : String) (now : Int)
    (m : List (String × Int)) (h : (isSignatureDuplicate sig now m).1 = true) :
    (isSignatureDuplicate sig now m).2 = cleanupSignatureCache now m := by
  unfold isSignatureDuplicate at h ⊢
  cases hg : mapGet (cleanupSignatureCache now m) sig with
  | none => simp [hg] at h
  | some t =>
    by_cases hc : t ≠ 0 ∧ now - t < SIGNATURE_TTL_MS
    · simp [hg, hc]
    · simp [hg, hc] at h

/-- A unique event (both checks pass) is dispatched and marked. -/
theorem robotCallback_unique (a : String) (st : DedupState)
    (raw0 : DingtalkRawMessage) (hm : Option String) (now : Int)
    (h1 : isMessageProcessed (dedupeId a (applyHeader hm raw0))
        (touchDedupCache now st) = false)
    (h2 : (isSignatureDuplicate (signatureKey a (applyHeader hm raw0)) now
        (touchDedupCache now st).recentSignatureTimestamps).1 = false) :
    robotCallback a st (some raw0) hm now =
      ⟨markMessageProcessed (dedupeId a (applyHeader hm raw0)) now
        { touchDedupCache now st with
          recentSignatureTimestamps :=
            (isSignatureDuplicate (signatureKey a (applyHeader hm raw0)) now
              (touchDedupCache now st).recentSignatureTimestamps).2 },
        .success, true⟩ := by
  simp [robotCallback, h1, h2]

/-- C3 counterexample: an event that reaches the signature check and is
judged a duplicate does NOT have its signature timestamp refreshed to the
current time — the cached timestamp 50 survives an arrival at time 60. -/
theorem claim_sig_refresh_counterexample :
    (isMessageProcessed
        (dedupeId "default" ⟨"text", some "hi", none, "s", "c", some "m2"⟩)
        (touchDedupCache 60
          ⟨[], [],
            [(signatureKey "default" ⟨"text", some "hi", none, "s", "c", some "m2"⟩,
              50)]⟩) = false) ∧
    (robotCallback "default"
        ⟨[], [],
          [(signatureKey "default" ⟨"text", some "hi", none, "s", "c", some "m2"⟩,
            50)]⟩
        (some ⟨"text", some "hi", none, "s", "c", some "m2"⟩) none 60).dispatched
      = false ∧
    mapGet
        (robotCallback "default"
          ⟨[], [],
            [(signatureKey "default" ⟨"text", some "hi", none, "s", "c", some "m2"⟩,
              50)]⟩
          (some ⟨"text", some "hi", none, "s", "c", some "m2"⟩) none
          60).state.recentSignatureTimestamps
        (signatureKey "default" ⟨"text", some "hi", none, "s", "c", some "m2"⟩)
      = some 50 := by decide

/-- C3 amended: for an event that reaches the signature check, the signature
key's timestamp is refreshed/inserted to the current time only when the event
is NOT judged a signature duplicate; when it is judged a duplicate, the cache
is merely swept and the existing timestamp is retained (anchored window, not
sliding). -/
theorem claim_sig_refresh_amended (a : String) (st : DedupState)
    (raw0 : DingtalkRawMessage) (hm : Option String) (now : Int)
    (hreach : isMessageProcessed (dedupeId a (applyHeader hm raw0))
      (touchDedupCache now st) = false) :
    ((robotCallback a st (some raw0) hm now).dispatched = true →
      mapGet (robotCallback a st (some raw0) hm
          now).state.recentSignatureTimestamps
        (signatureKey a (applyHeader hm raw0)) = some now) ∧
    ((robotCallback a st (some raw0) hm now).dispatched = false →
      (robotCallback a st (some raw0) hm now).state.recentSignatureTimestamps =
        cleanupSignatureCache now
          (touchDedupCache now st).recentSignatureTimestamps) := by
  by_cases hd : (isSignatureDuplicate (signatureKey a (applyHeader hm raw0)) now
      (touchDedupCache now st).recentSignatureTimestamps).1 = true
  · rw [robotCallback_sig_dup a st raw0 hm now hreach hd]
    refine ⟨fun h => Bool.noConfusion h, fun _ => ?_⟩
    exact isSignatureDuplicate_true_snd _ _ _ hd
  · rw [robotCallback_unique a st raw0 hm now hreach (by simpa using hd)]
    refine ⟨fun _ => ?_, fun h => Bool.noConfusion h⟩
    rw [mark_sig_unchanged]
    have hsnd := isSignatureDuplicate_false_snd
      (signatureKey a (applyHeader hm raw0)) now
      (touchDedupCache now st).recentSignatureTimestamps (by simpa using hd)
    calc mapGet (isSignatureDuplicate (signatureKey a (applyHeader hm raw0)) now
          (touchDedupCache now st).recentSignatureTimestamps).2
          (signatureKey a (applyHeader hm raw0))
        = mapGet (mapSet (cleanupSignatureCache now
            (touchDedupCache now st).recentSignatureTimestamps)
            (signatureKey a (applyHeader hm raw0)) now)
            (signatureKey a (applyHeader hm raw0)) := by rw [hsnd]
      _ = some now := mapGet_mapSet_self _ _ _

/-- Witness for the amended C3 at a concrete fresh event and a concrete
duplicate event. -/
theorem claim_sig_refresh_amended_witness :
    ((robotCallback "default" emptyDedup
        (some ⟨"text", some "hi", none, "s", "c", some "m2"⟩) none 60).dispatched
        = true →
      mapGet (robotCallback "default" emptyDedup
          (some ⟨"text", some "hi", none, "s", "c", some "m2"⟩) none
          60).state.recentSignatureTimestamps
        (signatureKey "default"
          (applyHeader none ⟨"text", some "hi", none, "s", "c", some "m2"⟩))
        = some 60) ∧
    ((robotCallback "default" emptyDedup
        (some ⟨"text", some "hi", none, "s", "c", some "m2"⟩) none 60).dispatched
        = false →
      (robotCallback "default" emptyDedup
          (some ⟨"text", some "hi", none, "s", "c", some "m2"⟩) none
          60).state.recentSignatureTimestamps =
        cleanupSignatureCache 60
          (touchDedupCache 60 emptyDedup).recentSignatureTimestamps) :=
  claim_sig_refresh_amended "default" emptyDedup
    ⟨"text", some "hi", none, "s", "c", some "m2"⟩ none 60 (by decide)

/-! ### Claim C5 -/

/-- C5: every transport callback invocation — parse failures, duplicates by
either cache, and handling errors (the catch clause) included — returns the
single success acknowledgment, never a failure/retry value. -/
theorem claim_always_success_ack (a : String) (st : DedupState)
    (payload : Option DingtalkRawMessage) (hm : Option String) (now : Int) :
    (robotCallback a st payload hm now).ack = EventAck.success := by
  cases payload with
  | none => rfl
  | some raw0 =>
    by_cases h1 : isMessageProcessed (dedupeId a (applyHeader hm raw0))
        (touchDedupCache now st) = true
    · rw [robotCallback_identity_dup a st raw0 hm now h1]
    · by_cases h2 : (isSignatureDuplicate (signatureKey a (applyHeader hm raw0))
          now (touchDedupCache now st).recentSignatureTimestamps).1 = true
      · rw [robotCallback_sig_dup a st raw0 hm now (by simpa using h1) h2]
      · rw [robotCallback_unique a st raw0 hm now (by simpa using h1)
          (by simpa using h2)]

/-! ### Claim C10 -/

/-- C10: the ':'-joined signature key does not escape its fields, so
conversation "a.b" with sender "c" collides with conversation "a" and
sender "b.c" (written here with ':' inside the field values); within the
signature TTL the second event is suppressed as a duplicate of an event from
a different conversation and sender. -/
theorem claim_signature_collision :
    (signatureKey "default" ⟨"text", some "hi", none, "c", "a:b", some "m1"⟩ =
      signatureKey "default" ⟨"text", some "hi", none, "b:c", "a", some "m2"⟩) ∧
    ((⟨"text", some "hi", none, "c", "a:b", some "m1"⟩ :
        DingtalkRawMessage).conversationId ≠
      (⟨"text", some "hi", none, "b:c", "a", some "m2"⟩ :
        DingtalkRawMessage).conversationId) ∧
    ((⟨"text", some "hi", none, "c", "a:b", some "m1"⟩ :
        DingtalkRawMessage).senderId ≠
      (⟨"text", some "hi", none, "b:c", "a", some "m2"⟩ :
        DingtalkRawMessage).senderId) ∧
    (robotCallback "default" emptyDedup
      (some ⟨"text", some "hi", none, "c", "a:b", some "m1"⟩) none
      1000).dispatched = true ∧
    (robotCallback "default"
        (robotCallback "default" emptyDedup
          (some ⟨"text", some "hi", none, "c", "a:b", some "m1"⟩) none 1000).state
        (some ⟨"text", some "hi", none, "b:c", "a", some "m2"⟩) none
        2000).dispatched = false ∧
    (robotCallback "default"
        (robotCallback "default" emptyDedup
          (some ⟨"text", some "hi", none, "c", "a:b", some "m1"⟩) none 1000).state
        (some ⟨"text", some "hi", none, "b:c", "a", some "m2"⟩) none
        2000).ack = EventAck.success := by decide

/-! ### Claim C4: identity-cache capacity and eviction -/

/-- Coupling invariant of the identity cache: the JS `Set` holds exactly the
keys of the JS `Map` (in order), without duplicates, and the empty string —
which the eviction code skips by JS truthiness — is never a key. -/
def GoodDedup (st : DedupState) : Prop :=
  st.processedMessageIds = st.processedMessageTimestamps.map Prod.fst ∧
  st.processedMessageIds.Nodup ∧ "" ∉ st.processedMessageIds

theorem key_unique {ts : List (String × Int)} (h : (ts.map Prod.fst).Nodup)
    {e e' : String × Int} (he : e ∈ ts) (he' : e' ∈ ts) (hk : e.1 = e'.1) :
    e = e' := by
  induction ts with
  | nil => cases he
  | cons x xs ih =>
    rw [List.map_cons, List.nodup_cons] at h
    rcases List.mem_cons.mp he with rfl | he2
    · rcases List.mem_cons.mp he' with rfl | he3
      · rfl
      · exact absurd (List.mem_map.mpr ⟨e', he3, hk.symm⟩) h.1
    · rcases List.mem_cons.mp he' with rfl | he3
      · exact absurd (List.mem_map.mpr ⟨e, he2, hk⟩) h.1
      · exact ih h.2 he2 he3

theorem append_left_ne_empty (s t : String) (h : s ≠ "") : s ++ t ≠ "" := by
  intro he
  have hd := congrArg String.data he
  rw [String.data_append] at hd
  exact h (String.ext (List.append_eq_nil.mp hd).1)

theorem append_colon_ne_empty (a : String) : a ++ ":" ≠ "" := by
  intro he
  have hd := congrArg String.data he
  rw [String.data_append] at hd
  exact absurd (List.append_eq_nil.mp hd).2 (by decide)

/-- Every dedupe identity key starts with `accountId ++ ":"`, hence is
non-empty for any account id. -/
theorem dedupeId_ne_empty (a : String) (m : DingtalkRawMessage) :
    dedupeId a m ≠ "" := by
  have hfb : dedupeId.dedupeFallback a m ≠ "" := by
    unfold dedupeId.dedupeFallback
    exact append_left_ne_empty _ _ (append_left_ne_empty _ _
      (append_left_ne_empty _ _ (append_left_ne_empty _ _
        (append_left_ne_empty _ _ (append_colon_ne_empty a)))))
  unfold dedupeId
  cases m.streamMessageId with
  | none => exact hfb
  | some sid =>
    by_cases hsid : sid = ""
    · simp only [hsid, if_pos]
      exact hfb
    · simp only [hsid, if_neg, not_false_iff]
      exact append_left_ne_empty _ _ (append_colon_ne_empty a)

theorem cleanup_good (now : Int) (st : DedupState) (hg : GoodDedup st) :
    GoodDedup (cleanupDedupCache now st) := by
  obtain ⟨hmap, hnd, hne⟩ := hg
  have hndk : (st.processedMessageTimestamps.map Prod.fst).Nodup := hmap ▸ hnd
  refine ⟨?_, ?_, ?_⟩
  · show st.processedMessageIds.filter _ =
      (st.processedMessageTimestamps.filter _).map Prod.fst
    rw [hmap, List.filter_map]
    refine congrArg (List.map Prod.fst) (List.filter_congr ?_)
    intro e he
    show (!((st.processedMessageTimestamps.filter
        (fun x => decide (now - x.2 > DEDUP_CACHE_TTL))).any
          (fun x => x.1 == e.1))) =
      (!(decide (now - e.2 > DEDUP_CACHE_TTL)))
    by_cases hd : now - e.2 > DEDUP_CACHE_TTL
    · have : (st.processedMessageTimestamps.filter
          (fun x => decide (now - x.2 > DEDUP_CACHE_TTL))).any
            (fun x => x.1 == e.1) = true :=
        List.any_eq_true.mpr ⟨e, List.mem_filter.mpr ⟨he, by simpa using hd⟩,
          by simp⟩
      simp [this, hd]
    · have : (st.processedMessageTimestamps.filter
          (fun x => decide (now - x.2 > DEDUP_CACHE_TTL))).any
            (fun x => x.1 == e.1) = false := by
        rw [List.any_eq_false]
        intro x hx hxk
        have hx2 := List.mem_filter.mp hx
        have hxe : x = e := key_unique hndk hx2.1 he (by simpa using hxk)
        rw [hxe] at hx2
        exact absurd (by simpa using hx2.2) hd
      simp [this, hd]
  · exact List.Nodup.filter _ hnd
  · intro hmem
    exact hne (List.mem_filter.mp hmem).1

theorem setAdd_of_mem (s : List String) (k : String) (h : k ∈ s) :
    setAdd s k = s := by
  unfold setAdd
  rw [if_pos (List.any_eq_true.mpr ⟨k, h, by simp⟩)]

theorem setAdd_of_not_mem (s : List String) (k : String) (h : k ∉ s) :
    setAdd s k = s ++ [k] := by
  unfold setAdd
  rw [if_neg]
  intro hc
  obtain ⟨x, hx, hxk⟩ := List.any_eq_true.mp hc
  exact h ((by simpa using hxk : x = k) ▸ hx)

theorem mapSet_of_not_key (m : List (String × Int)) (k : String) (v : Int)
    (h : k ∉ m.map Prod.fst) : mapSet m k v = m ++ [(k, v)] := by
  unfold mapSet
  rw [if_neg]
  intro hc
  obtain ⟨e, he, hek⟩ := List.any_eq_true.mp hc
  exact h (List.mem_map.mpr ⟨e, he, by simpa using hek⟩)

theorem mapSet_map_fst_of_key (m : List (String × Int)) (k : String) (v : Int)
    (h : k ∈ m.map Prod.fst) : (mapSet m k v).map Prod.fst = m.map Prod.fst := by
  obtain ⟨e0, he0, he0k⟩ := List.mem_map.mp h
  unfold mapSet
  rw [if_pos (List.any_eq_true.mpr ⟨e0, he0, by simpa using he0k⟩)]
  rw [List.map_map]
  refine List.map_congr_left ?_
  intro e he
  show (if e.1 == k then ((k, v) : String × Int) else e).1 = e.1
  by_cases hek : (e.1 == k) = true
  · rw [if_pos hek]
    exact (by simpa using hek : e.1 = k).symm
  · rw [if_neg hek]

theorem mem_of_head?_eq_some {α : Type} {l : List α} {a : α}
    (h : l.head? = some a) : a ∈ l := by
  cases l with
  | nil => cases h
  | cons x xs =>
    rw [List.head?_cons, Option.some.injEq] at h
    exact h ▸ List.mem_cons_self x xs

/-- Inserting a fresh non-empty key into a good state keeps it good. -/
theorem setAdd_mapSet_good (st : DedupState) (k : String) (now : Int)
    (hg : GoodDedup st) (hk : k ≠ "") :
    GoodDedup ⟨setAdd st.processedMessageIds k,
      mapSet st.processedMessageTimestamps k now,
      st.recentSignatureTimestamps⟩ := by
  obtain ⟨hmap, hnd, hne⟩ := hg
  by_cases hmem : k ∈ st.processedMessageIds
  · refine ⟨?_, ?_, ?_⟩
    · show setAdd _ _ = _
      rw [setAdd_of_mem _ _ hmem, mapSet_map_fst_of_key _ _ _ (hmap ▸ hmem)]
      exact hmap
    · show (setAdd _ _).Nodup
      rw [setAdd_of_mem _ _ hmem]
      exact hnd
    · show "" ∉ setAdd _ _
      rw [setAdd_of_mem _ _ hmem]
      exact hne
  · refine ⟨?_, ?_, ?_⟩
    · show setAdd _ _ = _
      rw [setAdd_of_not_mem _ _ hmem, mapSet_of_not_key _ _ _ (hmap ▸ hmem),
        List.map_append, ← hmap]
      rfl
    · show (setAdd _ _).Nodup
      rw [setAdd_of_not_mem _ _ hmem, List.nodup_append]
      refine ⟨hnd, List.nodup_singleton k, ?_⟩
      intro x hx hx2
      rw [List.mem_singleton] at hx2
      exact hmem (hx2 ▸ hx)
    · show "" ∉ setAdd _ _
      rw [setAdd_of_not_mem _ _ hmem]
      intro hc
      rcases List.mem_append.mp hc with hc1 | hc1
      · exact hne hc1
      · exact hk ((List.mem_singleton.mp hc1).symm)

/-- Deleting one key from both structures keeps a good state good. -/
theorem delete_good (st : DedupState) (k : String) (hg : GoodDedup st) :
    GoodDedup ⟨setDelete st.processedMessageIds k,
      mapDelete st.processedMessageTimestamps k,
      st.recentSignatureTimestamps⟩ := by
  obtain ⟨hmap, hnd, hne⟩ := hg
  refine ⟨?_, ?_, ?_⟩
  · show setDelete _ _ = (mapDelete _ _).map Prod.fst
    unfold setDelete mapDelete
    rw [hmap, List.filter_map]
    rfl
  · exact List.Nodup.filter _ hnd
  · intro hc
    exact hne (List.mem_filter.mp hc).1

/-- `markMessageProcessed` keeps the coupling invariant. -/
theorem mark_good (k : String) (now : Int) (st : DedupState)
    (hg : GoodDedup st) (hk : k ≠ "") :
    GoodDedup (markMessageProcessed k now st) := by
  unfold markMessageProcessed
  dsimp only
  split
  case isTrue h1 =>
    split
    case isTrue h2 =>
      split
      case h_1 e heq =>
        split
        case isTrue he =>
          exact setAdd_mapSet_good _ k now (cleanup_good now st hg) hk
        case isFalse he =>
          exact setAdd_mapSet_good _ k now
            (delete_good _ e.1 (cleanup_good now st hg)) hk
      case h_2 heq =>
        exact setAdd_mapSet_good _ k now (cleanup_good now st hg) hk
    case isFalse h2 =>
      exact setAdd_mapSet_good _ k now (cleanup_good now st hg) hk
  case isFalse h1 =>
    exact setAdd_mapSet_good _ k now hg hk

theorem setAdd_length_le (s : List String) (k : String) :
    (setAdd s k).length ≤ s.length + 1 := by
  by_cases h : k ∈ s
  · rw [setAdd_of_mem _ _ h]
    omega
  · rw [setAdd_of_not_mem _ _ h]
    simp

theorem filter_ne_length (s : List String) (k : String) (hnd : s.Nodup)
    (h : k ∈ s) :
    (setDelete s k).length + 1 = s.length := by
  unfold setDelete
  induction s with
  | nil => cases h
  | cons x xs ih =>
    rw [List.nodup_cons] at hnd
    by_cases hxk : x = k
    · rw [List.filter_cons, if_neg (by simp [hxk])]
      have hfix : xs.filter (fun y => !(y == k)) = xs := by
        rw [List.filter_eq_self]
        intro y hy
        have : y ≠ k := fun hyk => hnd.1 (hxk ▸ hyk ▸ hy)
        simp [this]
      rw [hfix]
      simp
    · have hkxs : k ∈ xs := by
        rcases List.mem_cons.mp h with h' | h'
        · exact absurd h'.symm hxk
        · exact h'
      rw [List.filter_cons, if_pos (by simp [hxk])]
      have := ih hnd.2 hkxs
      simp only [List.length_cons]
      omega

/-- `markMessageProcessed` never grows the identity cache beyond its capacity
(given the coupling invariant). -/
theorem mark_length_le (k : String) (now : Int) (st : DedupState)
    (hg : GoodDedup st)
    (hlen : st.processedMessageIds.length ≤ DEDUP_CACHE_MAX_SIZE) :
    (markMessageProcessed k now st).processedMessageIds.length ≤
      DEDUP_CACHE_MAX_SIZE := by
  have hclean_le : (cleanupDedupCache now st).processedMessageIds.length ≤
      st.processedMessageIds.length := List.length_filter_le _ _
  unfold markMessageProcessed
  dsimp only
  split
  case isTrue h1 =>
    split
    case isTrue h2 =>
      obtain ⟨hmapc, hndc, hnec⟩ := cleanup_good now st hg
      split
      case h_1 e heq =>
        have hmem : e ∈ (cleanupDedupCache now st).processedMessageTimestamps :=
          mem_of_head?_eq_some heq
        have hkey : e.1 ∈ (cleanupDedupCache now st).processedMessageIds := by
          rw [hmapc]
          exact List.mem_map.mpr ⟨e, hmem, rfl⟩
        have hkne : e.1 ≠ "" := fun hc => hnec (hc ▸ hkey)
        split
        case isTrue he => exact absurd he hkne
        case isFalse he =>
          show (setAdd (setDelete _ _) k).length ≤ _
          have h3 := filter_ne_length _ e.1 hndc hkey
          have h4 := setAdd_length_le
            (setDelete (cleanupDedupCache now st).processedMessageIds e.1) k
          omega
      case h_2 heq =>
        have hnil : (cleanupDedupCache now st).processedMessageTimestamps = [] := by
          cases hc : (cleanupDedupCache now st).processedMessageTimestamps with
          | nil => rfl
          | cons x xs => rw [hc] at heq; cases heq
        rw [hmapc, hnil] at h2
        simp [DEDUP_CACHE_MAX_SIZE] at h2
    case isFalse h2 =>
      have h4 := setAdd_length_le (cleanupDedupCache now st).processedMessageIds k
      omega
  case isFalse h1 =>
    have h4 := setAdd_length_le st.processedMessageIds k
    omega

theorem touch_good (now : Int) (st : DedupState) (hg : GoodDedup st) :
    GoodDedup (touchDedupCache now st) := by
  unfold touchDedupCache
  dsimp only
  split
  case isTrue h => exact cleanup_good now st hg
  case isFalse h => exact hg

theorem touch_length_le (now : Int) (st : DedupState) :
    (touchDedupCache now st).processedMessageIds.length ≤
      st.processedMessageIds.length := by
  unfold touchDedupCache
  dsimp only
  split
  case isTrue h => exact List.length_filter_le _ _
  case isFalse h => exact le_refl _

/-- One callback invocation keeps the invariant and the capacity bound. -/
theorem robotCallback_good (a : String) (st : DedupState)
    (payload : Option DingtalkRawMessage) (hm : Option String) (now : Int)
    (hg : GoodDedup st)
    (hlen : st.processedMessageIds.length ≤ DEDUP_CACHE_MAX_SIZE) :
    GoodDedup (robotCallback a st payload hm now).state ∧
      (robotCallback a st payload hm now).state.processedMessageIds.length ≤
        DEDUP_CACHE_MAX_SIZE := by
  cases payload with
  | none => exact ⟨hg, hlen⟩
  | some raw0 =>
    have hgt := touch_good now st hg
    have hlt := le_trans (touch_length_le now st) hlen
    by_cases h1 : isMessageProcessed (dedupeId a (applyHeader hm raw0))
        (touchDedupCache now st) = true
    · rw [robotCallback_identity_dup a st raw0 hm now h1]
      exact ⟨hgt, hlt⟩
    · by_cases h2 : (isSignatureDuplicate (signatureKey a (applyHeader hm raw0))
          now (touchDedupCache now st).recentSignatureTimestamps).1 = true
      · rw [robotCallback_sig_dup a st raw0 hm now (by simpa using h1) h2]
        exact ⟨hgt, hlt⟩
      · rw [robotCallback_unique a st raw0 hm now (by simpa using h1)
          (by simpa using h2)]
        exact ⟨mark_good _ now _ hgt (dedupeId_ne_empty a _),
          mark_length_le _ now _ hgt hlt⟩

/-- Dedup states reachable from the initial empty module state through
callback invocations (and `clearDedupCache`, which returns to the initial
state). -/
inductive ReachableDedup : DedupState → Prop
  | init : ReachableDedup emptyDedup
  | step (a : String) (payload : Option DingtalkRawMessage)
      (hm : Option String) (now : Int) {st : DedupState} :
      ReachableDedup st → ReachableDedup (robotCallback a st payload hm now).state

theorem reachable_good (st : DedupState) (h : ReachableDedup st) :
    GoodDedup st ∧ st.processedMessageIds.length ≤ DEDUP_CACHE_MAX_SIZE := by
  induction h with
  | init =>
    exact ⟨⟨rfl, List.nodup_nil, by simp [emptyDedup]⟩,
      by simp [emptyDedup, DEDUP_CACHE_MAX_SIZE]⟩
  | step a payload hm now hr ih =>
    exact robotCallback_good a _ payload hm now ih.1 ih.2

/-- At capacity (after the purge) a fresh key evicts exactly the
oldest-inserted entry: the head of the purged insertion order. -/
theorem mark_evicts_oldest (st : DedupState) (key : String) (now : Int)
    (hg : GoodDedup st)
    (hnotmem : key ∉ st.processedMessageIds)
    (hcap : DEDUP_CACHE_MAX_SIZE ≤
      (cleanupDedupCache now st).processedMessageIds.length) :
    (markMessageProcessed key now st).processedMessageIds =
      (cleanupDedupCache now st).processedMessageIds.tail ++ [key] := by
  obtain ⟨hmapc, hndc, hnec⟩ := cleanup_good now st hg
  have hstlen : DEDUP_CACHE_MAX_SIZE ≤ st.processedMessageIds.length :=
    le_trans hcap (List.length_filter_le _ _)
  have hknotc : key ∉ (cleanupDedupCache now st).processedMessageIds := by
    intro hc
    exact hnotmem (List.mem_filter.mp hc).1
  have htsne : (cleanupDedupCache now st).processedMessageTimestamps ≠ [] := by
    intro hc
    rw [hmapc, hc] at hcap
    simp [DEDUP_CACHE_MAX_SIZE] at hcap
  cases hts : (cleanupDedupCache now st).processedMessageTimestamps with
  | nil => exact absurd hts htsne
  | cons e rest =>
    have hids : (cleanupDedupCache now st).processedMessageIds =
        e.1 :: rest.map Prod.fst := by
      rw [hmapc, hts, List.map_cons]
    have hkey1 : e.1 ≠ "" := by
      intro hc
      exact hnec (hc ▸ hids ▸ List.mem_cons_self _ _)
    have hndt : e.1 ∉ rest.map Prod.fst := by
      have := hids ▸ hndc
      exact (List.nodup_cons.mp this).1
    have hdel : setDelete (cleanupDedupCache now st).processedMessageIds e.1 =
        rest.map Prod.fst := by
      rw [hids]
      unfold setDelete
      rw [List.filter_cons, if_neg (by simp)]
      rw [List.filter_eq_self]
      intro y hy
      have : y ≠ e.1 := fun hc => hndt (hc ▸ hy)
      simp [this]
    have hknott : key ∉ rest.map Prod.fst := by
      intro hc
      exact hknotc (hids ▸ List.mem_cons_of_mem _ hc)
    unfold markMessageProcessed
    dsimp only
    rw [if_pos hstlen, if_pos hcap, hts]
    simp only [List.head?_cons]
    rw [if_neg hkey1]
    dsimp only
    rw [hdel, setAdd_of_not_mem _ _ hknott, hids]
    rfl

/-- C4: in every reachable state the identity cache holds at most 10 000
entries; and marking a new key at capacity first purges expired entries,
then — if still at capacity — evicts exactly the single oldest-inserted
entry (insertion order, the head of the timestamp map) before inserting the
new key. -/
theorem claim_identity_cache_capacity :
    (∀ st : DedupState, ReachableDedup st →
        st.processedMessageIds.length ≤ DEDUP_CACHE_MAX_SIZE) ∧
    (∀ (st : DedupState) (key : String) (now : Int),
        GoodDedup st → key ∉ st.processedMessageIds →
        DEDUP_CACHE_MAX_SIZE ≤
          (cleanupDedupCache now st).processedMessageIds.length →
        (markMessageProcessed key now st).processedMessageIds =
          (cleanupDedupCache now st).processedMessageIds.tail ++ [key]) :=
  ⟨fun st h => (reachable_good st h).2,
   fun st key now hg hnm hcap => mark_evicts_oldest st key now hg hnm hcap⟩

/-- 10 000 distinct non-empty keys "a", "aa", "aaa", …. -/
def bigKeys : List String :=
  (List.range 10000).map (fun i => String.mk (List.replicate (i + 1) 'a'))

/-- The timestamp entries pairing each key with insertion time 5. -/
def bigPairs : List (String × Int) := bigKeys.map (fun k => (k, (5 : Int)))

/-- A well-formed identity cache at exactly full capacity, every entry
freshly stamped at time 5. -/
def bigState : DedupState := ⟨bigKeys, bigPairs, []⟩

theorem bigState_ids : bigState.processedMessageIds = bigKeys := by
  simp only [bigState]

theorem bigState_ts : bigState.processedMessageTimestamps = bigPairs := by
  simp only [bigState]

theorem bigKeys_nodup : bigKeys.Nodup := by
  refine List.Nodup.map ?_ (List.nodup_range 10000)
  intro i j h
  have hd : List.replicate (i + 1) 'a' = List.replicate (j + 1) 'a' :=
    congrArg String.data h
  have hl := congrArg List.length hd
  simp only [List.length_replicate] at hl
  omega

theorem bigKeys_ne_empty : "" ∉ bigKeys := by
  intro h
  obtain ⟨i, _, hi⟩ := List.mem_map.mp h
  have hd : List.replicate (i + 1) 'a' = ("" : String).data :=
    congrArg String.data hi
  have := congrArg List.length hd
  simp at this

theorem bigKeys_not_mem_b : "b" ∉ bigKeys := by
  intro h
  obtain ⟨i, _, hi⟩ := List.mem_map.mp h
  have hd : List.replicate (i + 1) 'a' = ("b" : String).data :=
    congrArg String.data hi
  have hb : ("b" : String).data = ['b'] := by decide
  rw [hb, List.replicate_succ] at hd
  injection hd with h1 h2
  exact absurd h1 (by decide)

theorem bigKeys_len : bigKeys.length = 10000 := by
  simp [bigKeys]

theorem bigState_good : GoodDedup bigState := by
  refine ⟨?_, ?_, ?_⟩
  · rw [bigState_ids, bigState_ts]
    simp only [bigPairs]
    rw [List.map_map]
    have hcomp : (Prod.fst ∘ fun k : String => (k, (5 : Int))) = id := rfl
    rw [hcomp, List.map_id]
  · rw [bigState_ids]
    exact bigKeys_nodup
  · rw [bigState_ids]
    exact bigKeys_ne_empty

theorem bigState_not_mem_b : "b" ∉ bigState.processedMessageIds := by
  rw [bigState_ids]
  exact bigKeys_not_mem_b

theorem bigState_cleanup_ids :
    (cleanupDedupCache 5 bigState).processedMessageIds = bigKeys := by
  have hexp : (bigState.processedMessageTimestamps.filter
      (fun e => decide ((5 : Int) - e.2 > DEDUP_CACHE_TTL))) = [] := by
    rw [bigState_ts]
    rw [List.filter_eq_nil_iff]
    intro e he
    simp only [bigPairs] at he
    obtain ⟨k, _, rfl⟩ := List.mem_map.mp he
    simp [DEDUP_CACHE_TTL]
  unfold cleanupDedupCache
  dsimp only
  rw [hexp, bigState_ids]
  rw [List.filter_eq_self]
  intro i hi
  simp

theorem bigState_cap : DEDUP_CACHE_MAX_SIZE ≤
    (cleanupDedupCache 5 bigState).processedMessageIds.length := by
  rw [bigState_cleanup_ids, bigKeys_len]
  decide

/-- Witness for C4: the initial state respects the bound, and marking "b"
into the full 10 000-entry cache evicts exactly the oldest key. -/
theorem claim_identity_cache_capacity_witness :
    emptyDedup.processedMessageIds.length ≤ DEDUP_CACHE_MAX_SIZE ∧
    (markMessageProcessed "b" 5 bigState).processedMessageIds =
      (cleanupDedupCache 5 bigState).processedMessageIds.tail ++ ["b"] :=
  ⟨claim_identity_cache_capacity.1 emptyDedup ReachableDedup.init,
   claim_identity_cache_capacity.2 bigState "b" 5 bigState_good
     bigState_not_mem_b bigState_cap⟩

/-! ### Connection supervisor (module-level session state) -/

/-- The module-level mutable state of monitor.ts for the single active
Stream session: `currentClient`, `currentAccountId`, `currentPromise`,
`currentStop`.  Client and promise objects are identified by numeric
handles; `currentStopDefined` records whether a stop hook is installed. -/
structure MonitorState where
  currentClient : Option Nat
  currentAccountId : Option String
  currentPromise : Option Nat
  currentStopDefined : Bool
deriving DecidableEq

/-- The idle module state (all four fields null). -/
def idleMonitor : MonitorState := ⟨none, none, none, false⟩

/-- `isMonitorActive`. -/
def isMonitorActive (g : MonitorState) : Bool := g.currentClient.isSome

/-- `getCurrentAccountId`. -/
def getCurrentAccountId (g : MonitorState) : Option String := g.currentAccountId

/-- Errors thrown synchronously by `monitorDingtalkProvider`. -/
inductive StartError
  | conflict
  | invalidState
  | configNotFound
  | createFailed
deriving DecidableEq

/-- Outcome of one `monitorDingtalkProvider` call: the module state
afterwards, the returned promise handle or thrown error, whether
`createDingtalkClientFromConfig` was invoked, and whether the returned
promise was already rejected by a synchronous `connect` failure. -/
structure StartOutcome where
  state : MonitorState
  result : Except StartError Nat
  attemptedCreate : Bool
  promiseRejected : Bool

/-- `monitorDingtalkProvider` as a state transformer.  `hasConfig` models
presence of `config.channels.dingtalk`; `accountIdOpt` the `accountId`
option (JS destructuring defaults to "default" only when the field is
undefined, so an empty string stays empty); `aborted` whether the abort
signal is already aborted at start; `createResult` the outcome of
`createDingtalkClientFromConfig` (`none` = constructor threw); `connectOk`
whether the synchronous register/connect succeed; `newPromiseId` the handle
of the freshly constructed promise.  The conflict guard mirrors the JS
truthiness test `currentAccountId && currentAccountId !== accountId`. -/
def monitorStart (g : MonitorState) (hasConfig : Bool)
    (accountIdOpt : Option String) (aborted : Bool)
    (createResult : Option Nat) (connectOk : Bool) (newPromiseId : Nat) :
    StartOutcome :=
  let accountId := accountIdOpt.getD "default"
  match g.currentClient with
  | some _ =>
    match g.currentAccountId with
    | some a =>
      if a ≠ "" ∧ a ≠ accountId then ⟨g, .error .conflict, false, false⟩
      else
        match g.currentPromise with
        | some p => ⟨g, .ok p, false, false⟩
        | none => ⟨g, .error .invalidState, false, false⟩
    | none =>
      match g.currentPromise with
      | some p => ⟨g, .ok p, false, false⟩
      | none => ⟨g, .error .invalidState, false, false⟩
  | none =>
    if hasConfig = false then ⟨g, .error .configNotFound, false, false⟩
    else
      match createResult with
      | none => ⟨g, .error .createFailed, true, false⟩
      | some c =>
        if aborted then
          ⟨⟨none, none, some newPromiseId, false⟩, .ok newPromiseId,
            true, false⟩
        else if connectOk then
          ⟨⟨some c, some accountId, some newPromiseId, true⟩,
            .ok newPromiseId, true, false⟩
        else
          ⟨⟨none, none, some newPromiseId, false⟩, .ok newPromiseId,
            true, true⟩

/-! ### Claim C6 -/

/-- C6: a start call while a session is active for the same account returns
the very same completion-signal handle as the original call, with no state
change and no second connection created. -/
theorem claim_start_same_account_idempotent (g : MonitorState) (c : Nat)
    (a : String) (p : Nat) (hasConfig : Bool) (aborted : Bool)
    (createResult : Option Nat) (connectOk : Bool) (npid : Nat)
    (hc : g.currentClient = some c) (ha : g.currentAccountId = some a)
    (hp : g.currentPromise = some p) :
    (monitorStart g hasConfig (some a) aborted createResult connectOk
        npid).result = Except.ok p ∧
    (monitorStart g hasConfig (some a) aborted createResult connectOk
        npid).state = g ∧
    (monitorStart g hasConfig (some a) aborted createResult connectOk
        npid).attemptedCreate = false := by
  unfold monitorStart
  rw [hc, ha, hp]
  simp

/-- Witness for C6 at a concrete active session. -/
theorem claim_start_same_account_idempotent_witness :
    (monitorStart ⟨some 1, some "acct", some 5, true⟩ true (some "acct")
        false none true 9).result = Except.ok 5 ∧
    (monitorStart ⟨some 1, some "acct", some 5, true⟩ true (some "acct")
        false none true 9).state = ⟨some 1, some "acct", some 5, true⟩ ∧
    (monitorStart ⟨some 1, some "acct", some 5, true⟩ true (some "acct")
        false none true 9).attemptedCreate = false :=
  claim_start_same_account_idempotent ⟨some 1, some "acct", some 5, true⟩
    1 "acct" 5 true false none true 9 rfl rfl rfl

/-! ### Claim C7 -/

/-- C7 counterexample: when the active session's account id is the empty
string (falsy in JS), a start for a different account does NOT fail with a
conflict — it joins the existing session and returns its promise. -/
theorem claim_start_conflict_counterexample :
    (monitorStart ⟨some 0, some "", some 7, true⟩ true (some "other") false
        none true 9).result = Except.ok 7 ∧
    (monitorStart ⟨some 0, some "", some 7, true⟩ true (some "other") false
        none true 9).result ≠ Except.error StartError.conflict := by
  refine ⟨rfl, ?_⟩
  intro h
  exact Except.noConfusion (rfl.trans h :
    (Except.ok 7 : Except StartError Nat) = Except.error StartError.conflict)

/-- C7 amended: a start call for a different account while a session with a
NON-EMPTY account id is active fails with the conflict error and leaves the
session untouched: the state is unchanged, `isMonitorActive` stays true and
`getCurrentAccountId` still answers the original account.  (When the active
account id is the empty string, JS truthiness skips the guard and the call
joins the session instead.) -/
theorem claim_start_conflict_on_diff_account (g : MonitorState) (c : Nat)
    (a : String) (hasConfig : Bool) (accountIdOpt : Option String)
    (aborted : Bool) (createResult : Option Nat) (connectOk : Bool)
    (npid : Nat)
    (hc : g.currentClient = some c) (ha : g.currentAccountId = some a)
    (hane : a ≠ "") (hdiff : a ≠ accountIdOpt.getD "default") :
    (monitorStart g hasConfig accountIdOpt aborted createResult connectOk
        npid).result = Except.error StartError.conflict ∧
    (monitorStart g hasConfig accountIdOpt aborted createResult connectOk
        npid).state = g ∧
    (monitorStart g hasConfig accountIdOpt aborted createResult connectOk
        npid).attemptedCreate = false ∧
    isMonitorActive (monitorStart g hasConfig accountIdOpt aborted
        createResult connectOk npid).state = true ∧
    getCurrentAccountId (monitorStart g hasConfig accountIdOpt aborted
        createResult connectOk npid).state = some a := by
  unfold monitorStart
  rw [hc, ha]
  simp only [if_pos (And.intro hane hdiff)]
  simp [isMonitorActive, getCurrentAccountId, hc, ha]

/-- Witness for the amended C7. -/
theorem claim_start_conflict_on_diff_account_witness :
    (monitorStart ⟨some 1, some "acct", some 5, true⟩ true (some "other")
        false none true 9).result = Except.error StartError.conflict ∧
    (monitorStart ⟨some 1, some "acct", some 5, true⟩ true (some "other")
        false none true 9).state = ⟨some 1, some "acct", some 5, true⟩ ∧
    (monitorStart ⟨some 1, some "acct", some 5, true⟩ true (some "other")
        false none true 9).attemptedCreate = false ∧
    isMonitorActive (monitorStart ⟨some 1, some "acct", some 5, true⟩ true
        (some "other") false none true 9).state = true ∧
    getCurrentAccountId (monitorStart ⟨some 1, some "acct", some 5, true⟩ true
        (some "other") false none true 9).state = some "acct" :=
  claim_start_conflict_on_diff_account ⟨some 1, some "acct", some 5, true⟩
    1 "acct" true (some "other") false none true 9 rfl rfl (by decide)
    (by decide)

/-! ### Claim C8 -/

/-- C8 counterexample: a start call with no account configuration while the
same-account session is active does NOT fail with a configuration error —
the config check is never reached and the existing promise is returned. -/
theorem claim_start_no_config_counterexample :
    (monitorStart ⟨some 0, some "default", some 7, true⟩ false none false
        none true 9).result = Except.ok 7 ∧
    (monitorStart ⟨some 0, some "default", some 7, true⟩ false none false
        none true 9).result ≠ Except.error StartError.configNotFound := by
  refine ⟨rfl, ?_⟩
  intro h
  exact Except.noConfusion (rfl.trans h :
    (Except.ok 7 : Except StartError Nat) = Except.error StartError.configNotFound)

/-- C8 amended: a start call with no account configuration WHILE NO SESSION
IS ACTIVE fails with the configuration error before any connection attempt
(the client constructor is never invoked) and mutates no state.  (With an
active same-account session the config check is never reached and the call
returns the existing promise.) -/
theorem claim_start_no_config_fails (g : MonitorState)
    (accountIdOpt : Option String) (aborted : Bool)
    (createResult : Option Nat) (connectOk : Bool) (npid : Nat)
    (hidle : g.currentClient = none) :
    (monitorStart g false accountIdOpt aborted createResult connectOk
        npid).result = Except.error StartError.configNotFound ∧
    (monitorStart g false accountIdOpt aborted createResult connectOk
        npid).state = g ∧
    (monitorStart g false accountIdOpt aborted createResult connectOk
        npid).attemptedCreate = false := by
  unfold monitorStart
  rw [hidle]
  simp

/-- Witness for the amended C8 from the idle state. -/
theorem claim_start_no_config_fails_witness :
    (monitorStart idleMonitor false none false (some 4) true 9).result
        = Except.error StartError.configNotFound ∧
    (monitorStart idleMonitor false none false (some 4) true 9).state
        = idleMonitor ∧
    (monitorStart idleMonitor false none false (some 4) true 9).attemptedCreate
        = false :=
  claim_start_no_config_fails idleMonitor none false (some 4) true 9 rfl

/-! ### Claim C9: the finalize guard -/

/-- One started session's closure state: the client handle it owns, the
`stopped` guard, how often the completion promise was resolved/rejected,
whether the abort listener is still registered, and the module state. -/
structure Session where
  client : Nat
  stopped : Bool
  resolveCount : Nat
  rejectCount : Nat
  abortListenerActive : Bool
  globalState : MonitorState
deriving DecidableEq

/-- `cleanup`: clear the module fields only when this session's client is
still the recorded one (the disconnect attempt carries no state). -/
def sessionCleanup (c : Nat) (g : MonitorState) : MonitorState :=
  if g.currentClient = some c then idleMonitor else g

/-- `finalizeResolve`: a no-op once `stopped`; otherwise removes the abort
listener, cleans up, and resolves the promise. -/
def finalizeResolve (s : Session) : Session :=
  if s.stopped then s
  else
    { s with
      stopped := true,
      abortListenerActive := false,
      globalState := sessionCleanup s.client s.globalState,
      resolveCount := s.resolveCount + 1 }

/-- `finalizeReject`: same guard, rejecting instead. -/
def finalizeReject (s : Session) : Session :=
  if s.stopped then s
  else
    { s with
      stopped := true,
      abortListenerActive := false,
      globalState := sessionCleanup s.client s.globalState,
      rejectCount := s.rejectCount + 1 }

/-- `stopDingtalkMonitor`: prefer the stop hook (this session's
`finalizeResolve`); otherwise disconnect and clear any resident handle
without resolving. -/
def stopDingtalkMonitor (s : Session) : Session :=
  if s.globalState.currentStopDefined then finalizeResolve s
  else if s.globalState.currentClient.isSome then { s with globalState := idleMonitor }
  else s

/-- The events that can reach the finalize logic after start: the abort
listener firing (only while registered), an explicit `stop()` call, and
direct re-entries of the guarded resolve/reject. -/
inductive FinalizeTrigger
  | abortFired
  | stopCalled
  | resolveAgain
  | rejectTriggered

def sessionStep (s : Session) : FinalizeTrigger → Session
  | .abortFired => if s.abortListenerActive then finalizeResolve s else s
  | .stopCalled => stopDingtalkMonitor s
  | .resolveAgain => finalizeResolve s
  | .rejectTriggered => finalizeReject s

/-- A session whose finalize already ran: stopped, resolved exactly once,
listener removed, module state cleared. -/
def FinishedSession (s : Session) : Prop :=
  s.stopped = true ∧ s.resolveCount = 1 ∧ s.abortListenerActive = false ∧
    s.globalState = idleMonitor

theorem finished_step_fixed (s : Session) (tr : FinalizeTrigger)
    (h : FinishedSession s) : sessionStep s tr = s := by
  obtain ⟨h1, h2, h3, h4⟩ := h
  cases tr with
  | abortFired => simp [sessionStep, h3]
  | stopCalled => simp [sessionStep, stopDingtalkMonitor, h4, idleMonitor]
  | resolveAgain => simp [sessionStep, finalizeResolve, h1]
  | rejectTriggered => simp [sessionStep, finalizeReject, h1]

theorem first_abort_finishes (s : Session)
    (h1 : s.stopped = false) (h2 : s.resolveCount = 0)
    (h3 : s.abortListenerActive = true)
    (h4 : s.globalState.currentClient = some s.client) :
    FinishedSession (sessionStep s .abortFired) := by
  refine ⟨?_, ?_, ?_, ?_⟩ <;>
    simp [sessionStep, h3, finalizeResolve, h1, h2, sessionCleanup, h4]

/-- C9: after a successful start (not yet stopped, promise unresolved, abort
listener registered, session's client recorded as current), firing the abort
signal resolves the completion promise exactly once — no matter what
sequence of further abort firings, `stop()` calls, and finalize re-entries
follows — and `isActive()` is false afterwards. -/
theorem claim_abort_resolves_once (s : Session) (l : List FinalizeTrigger)
    (h1 : s.stopped = false) (h2 : s.resolveCount = 0)
    (h3 : s.abortListenerActive = true)
    (h4 : s.globalState.currentClient = some s.client) :
    (l.foldl sessionStep (sessionStep s .abortFired)).resolveCount = 1 ∧
    isMonitorActive
      (l.foldl sessionStep (sessionStep s .abortFired)).globalState = false := by
  have hfin : FinishedSession (sessionStep s .abortFired) :=
    first_abort_finishes s h1 h2 h3 h4
  have hfold : ∀ (l2 : List FinalizeTrigger) (t : Session),
      FinishedSession t → l2.foldl sessionStep t = t := by
    intro l2
    induction l2 with
    | nil => intro t ht; rfl
    | cons x xs ih =>
      intro t ht
      rw [List.foldl_cons, finished_step_fixed t x ht]
      exact ih t ht
  rw [hfold l _ hfin]
  refine ⟨hfin.2.1, ?_⟩
  rw [hfin.2.2.2]
  rfl

/-- Witness for C9: a concrete session aborted and then stopped, resolved
and rejected again. -/
theorem claim_abort_resolves_once_witness :
    (([FinalizeTrigger.stopCalled, FinalizeTrigger.resolveAgain,
        FinalizeTrigger.rejectTriggered, FinalizeTrigger.abortFired]).foldl
      sessionStep
      (sessionStep ⟨3, false, 0, 0, true, ⟨some 3, some "default", some 7,
        true⟩⟩ FinalizeTrigger.abortFired)).resolveCount = 1 ∧
    isMonitorActive
      (([FinalizeTrigger.stopCalled, FinalizeTrigger.resolveAgain,
          FinalizeTrigger.rejectTriggered, FinalizeTrigger.abortFired]).foldl
        sessionStep
        (sessionStep ⟨3, false, 0, 0, true, ⟨some 3, some "default", some 7,
          true⟩⟩ FinalizeTrigger.abortFired)).globalState = false :=
  claim_abort_resolves_once
    ⟨3, false, 0, 0, true, ⟨some 3, some "default", some 7, true⟩⟩
    [FinalizeTrigger.stopCalled, FinalizeTrigger.resolveAgain,
      FinalizeTrigger.rejectTriggered, FinalizeTrigger.abortFired]
    rfl rfl rfl rfl

end Dingtalk
